import Mathlib

/-!
Verification of the session/command-correlation core of `shimmy_cloud_agents`.

The Python dictionaries (`_pending_power_requests`, `_active_streams_map`,
`robot_audio_buffers`) are modelled as association lists with unique keys;
`asyncio.Future` objects are modelled as entries in a `futures` store indexed
by a freshly generated numeric id, so that a future popped out of the pending
table is still observable by the coroutine that holds it.
-/

namespace Shimmy

/-! ## Association-list model of a Python dict -/

/-- Lookup of a key in an association list (first match). -/
def kvLookup {κ β : Type} [DecidableEq κ] (k : κ) : List (κ × β) → Option β
  | [] => none
  | p :: t => if p.1 = k then some p.2 else kvLookup k t

/-- Removal of every binding of a key (`dict.pop(k, None)` effect on the store). -/
def kvErase {κ β : Type} [DecidableEq κ] (k : κ) : List (κ × β) → List (κ × β)
  | [] => []
  | p :: t => if p.1 = k then kvErase k t else p :: kvErase k t

/-- Assignment `d[k] = v` of a Python dict: the key ends up bound to `v`,
all other keys keep their bindings. -/
def kvInsert {κ β : Type} [DecidableEq κ] (k : κ) (v : β) (l : List (κ × β)) :
    List (κ × β) :=
  (k, v) :: kvErase k l

/-! ## Pending-Request Table (`grpc_context_manager.py`) -/

/-- State of an `asyncio.Future`: freshly created, resolved by `set_result`,
or cancelled (which is what `asyncio.wait_for` does on timeout).
`resolved` and `cancelled` futures are `done()`. -/
inductive Future where
  | pending : Future
  | resolved : String → Future
  | cancelled : Future
deriving DecidableEq, Repr

/-- Python's `future.done()`. -/
def Future.done : Future → Bool
  | .pending => false
  | _ => true

/-- Global state of the pending-request machinery:
`table` is `_pending_power_requests` (command_id ↦ future id),
`futures` is the store of future objects (id ↦ state),
`awaiters` records which coroutine holds which future (the future object a
caller of `get_power_status_tool` keeps after registering it), and
`nextId` generates fresh future ids. -/
structure PState where
  table : List (String × Nat)
  futures : List (Nat × Future)
  awaiters : List (String × Nat)
  nextId : Nat
deriving DecidableEq, Repr

/-- The empty initial state (module load time). -/
def initState : PState := ⟨[], [], [], 0⟩

/-- `robot_commands.py` line 253: `power_status_future = asyncio.Future()` —
creates a fresh, pending future and returns its id. -/
def newFuture (s : PState) : Nat × PState :=
  (s.nextId,
   { s with futures := kvInsert s.nextId Future.pending s.futures
            nextId := s.nextId + 1 })

/-- `grpc_context_manager.py` lines 45-48: `add_pending_power_request` —
plain dict assignment `_pending_power_requests[command_id] = future`.
Note that an existing binding of `command_id` is silently overwritten. -/
def add_pending_power_request (command_id : String) (fid : Nat) (s : PState) :
    PState :=
  { s with table := kvInsert command_id fid s.table }

/-- `robot_commands.py` lines 253-254 composed: create the future, register it
in the pending table, and record that the calling coroutine holds it. -/
def registerPowerRequest (command_id : String) (s : PState) : PState :=
  let fs := newFuture s
  let s2 := add_pending_power_request command_id fs.1 fs.2
  { s2 with awaiters := (command_id, fs.1) :: s2.awaiters }

/-- `grpc_context_manager.py` lines 50-66: `resolve_pending_power_request` —
pops the future for `command_id` (if any); if it exists and is not done,
sets its result and returns `true`; otherwise returns `false`.  The pop
happens before the `done()` check, so even the `false` branch for a done
future removes the table entry. -/
def resolve_pending_power_request (command_id result : String) (s : PState) :
    Bool × PState :=
  match kvLookup command_id s.table with
  | none => (false, s)
  | some fid =>
    if kvLookup fid s.futures = some Future.pending then
      (true, { s with table := kvErase command_id s.table
                      futures := kvInsert fid (Future.resolved result) s.futures })
    else
      (false, { s with table := kvErase command_id s.table })

/-- `grpc_context_manager.py` lines 68-70: `get_pending_power_request` —
non-destructive lookup (returns the future id, if registered). -/
def get_pending_power_request (command_id : String) (s : PState) : Option Nat :=
  kvLookup command_id s.table

/-- Error value used by `get_power_status_tool` when `asyncio.wait_for`
times out (`robot_commands.py` line 267). -/
def timeoutResolveMsg : String := "Error: Timeout waiting for power status."

/-! ## Interleaving semantics of add/resolve/await -/

/-- Result of one `await` (`asyncio.wait_for(power_status_future, 10.0)`):
either the resolved value or the timeout outcome. -/
inductive AwaitRes where
  | value : String → AwaitRes
  | timedOut : AwaitRes
deriving DecidableEq, Repr

/-- One atomic step of one of the logical flows that touch the table. -/
inductive Op where
  /-- `get_power_status_tool` registers a fresh request (lines 253-254). -/
  | addReq : String → Op
  /-- the gRPC receive loop calls `resolve_pending_power_request` (server.py
  line 333), or any other caller of resolve. -/
  | resolveReq : String → String → Op
  /-- `asyncio.wait_for` hits the timeout and cancels the future held by the
  awaiter `(command_id, fid)`. -/
  | timeoutFire : String → Nat → Op
  /-- the `except asyncio.TimeoutError` handler (lines 265-268) runs for the
  awaiter `(command_id, fid)`: it calls resolve with `timeoutResolveMsg` and
  returns the TimedOut outcome. -/
  | timeoutHandle : String → Nat → Op
  /-- `asyncio.wait_for` observes the resolved future of the awaiter
  `(command_id, fid)` and returns its value (lines 262-264). -/
  | awaitValue : String → Nat → Op
deriving DecidableEq, Repr

/-- Observable outcomes produced by steps. -/
inductive Event where
  | resolveReturned : String → Bool → Event
  | awaitReturned : String → AwaitRes → Event
deriving DecidableEq, Repr

/-- Small-step semantics: each `Op` updates the state and emits the events
observed by its flow.  An `await` op whose enabling condition does not hold
(e.g. the future is not in the matching state) emits nothing — that
interleaving does not occur. -/
def step (s : PState) : Op → PState × List Event
  | .addReq cid => (registerPowerRequest cid s, [])
  | .resolveReq cid v =>
    let r := resolve_pending_power_request cid v s
    (r.2, [.resolveReturned cid r.1])
  | .timeoutFire cid fid =>
    if (cid, fid) ∈ s.awaiters ∧ kvLookup fid s.futures = some Future.pending then
      ({ s with futures := kvInsert fid Future.cancelled s.futures }, [])
    else (s, [])
  | .timeoutHandle cid fid =>
    if (cid, fid) ∈ s.awaiters ∧ kvLookup fid s.futures = some Future.cancelled then
      let r := resolve_pending_power_request cid timeoutResolveMsg s
      (r.2, [.resolveReturned cid r.1, .awaitReturned cid .timedOut])
    else (s, [])
  | .awaitValue cid fid =>
    match kvLookup fid s.futures with
    | some (Future.resolved v) =>
      if (cid, fid) ∈ s.awaiters then (s, [.awaitReturned cid (.value v)])
      else (s, [])
    | _ => (s, [])

/-- Run a sequence of steps, collecting all emitted events in order. -/
def run (s : PState) : List Op → PState × List Event
  | [] => (s, [])
  | op :: ops =>
    ((run (step s op).1 ops).1, (step s op).2 ++ (run (step s op).1 ops).2)

/-- Recognizes the op that registers the given command_id. -/
def isAddOf (cid : String) : Op → Bool
  | .addReq c => c == cid
  | _ => false

/-- Number of `addReq cid` operations in a sequence. -/
def countAdds (cid : String) (ops : List Op) : Nat :=
  (ops.filter (isAddOf cid)).length

/-- Recognizes the event "a resolve call for `cid` returned `true`". -/
def isTrueResolveOf (cid : String) : Event → Bool
  | .resolveReturned c b => b && (c == cid)
  | _ => false

/-- Number of resolve calls for `cid` that returned `true`. -/
def countTrueResolves (cid : String) (evs : List Event) : Nat :=
  (evs.filter (isTrueResolveOf cid)).length

/-- Recognizes the event "an await of `cid` returned". -/
def isAwaitReturnOf (cid : String) : Event → Bool
  | .awaitReturned c _ => c == cid
  | _ => false

/-- Number of await-return events for `cid`. -/
def countAwaitReturns (cid : String) (evs : List Event) : Nat :=
  (evs.filter (isAwaitReturnOf cid)).length

/-- State reached after the first `n` operations from the initial state. -/
def stateAt (ops : List Op) (n : Nat) : PState :=
  (run initState (ops.take n)).1

/-! ## Audio accumulation buffer (`server.py` lines 307-321) -/

/-- Processing of one inbound `audio_chunk` frame for a connection whose
buffer currently holds `buf`: `robot_audio_buffers[robot_id].extend(...)`
(line 310), then, if the buffer is nonempty (line 312), the whole buffer is
snapshotted, handed downstream, and the buffer is reset to empty (lines
313-314).  Returns the new buffer and the bytes flushed downstream, if any. -/
def audio_chunk_step (buf chunk : List Nat) : List Nat × Option (List Nat) :=
  let buf1 := buf ++ chunk
  if 0 < buf1.length then ([], some buf1) else (buf1, none)

/-- Processing of a whole sequence of audio-chunk frames, in arrival order,
collecting the units handed downstream. -/
def audio_run (buf : List Nat) : List (List Nat) → List Nat × List (List Nat)
  | [] => (buf, [])
  | c :: cs =>
    ((audio_run (audio_chunk_step buf c).1 cs).1,
     (match (audio_chunk_step buf c).2 with | some o => [o] | none => []) ++
       (audio_run (audio_chunk_step buf c).1 cs).2)

/-- Byte-wise concatenation of a list of chunks. -/
def listJoin (l : List (List Nat)) : List Nat := l.foldr (· ++ ·) []

/-! ## Command-acknowledgement handling (`server.py` lines 328-351) -/

/-- The reserved sentinel command id (line 338). -/
def interactiveSentinel : String := "interactive_shell_command"

/-- Text written back for a sentinel acknowledgement (lines 343-349). -/
def interactiveReplyText : String :=
  "Please use voice commands instead of the interactive text shell."

/-- What the handler did with an inbound command-acknowledgement frame. -/
inductive AckAction where
  /-- the ack resolved a pending request; nothing further happens. -/
  | consumedByWaiter : AckAction
  /-- sentinel command id, not consumed: a text response is written back. -/
  | interactiveResponse : String → AckAction
  /-- anything else: logged and discarded. -/
  | discarded : AckAction
deriving DecidableEq, Repr

/-- `server.py` lines 328-351: on a `command_ack` status update, first try to
resolve a pending power request; only if that returns `False` and the
command id is the interactive sentinel is the text path taken; otherwise the
ack is discarded.  Returns the action taken and the table state after the
resolve attempt. -/
def handle_command_ack (ackCommandId ackMessage : String) (s : PState) :
    AckAction × PState :=
  let r := resolve_pending_power_request ackCommandId ackMessage s
  if r.1 then (.consumedByWaiter, r.2)
  else if ackCommandId = interactiveSentinel then
    (.interactiveResponse interactiveReplyText, r.2)
  else (.discarded, r.2)

/-! ## Connection registry and per-connection cleanup (`server.py`) -/

/-- The server's per-connection bookkeeping: `active_robot_streams`
(robot_id ↦ gRPC stream context, modelled as an opaque handle) and
`robot_audio_buffers` (robot_id ↦ audio buffer). -/
structure ServerConnState where
  active_robot_streams : List (String × Nat)
  robot_audio_buffers : List (String × List Nat)
deriving DecidableEq, Repr

/-- `server.py` lines 283-284: on entering `Communicate`, the connection is
registered and its audio buffer initialized to empty. -/
def communicate_setup (robot_id : String) (ctx : Nat) (st : ServerConnState) :
    ServerConnState :=
  { active_robot_streams := kvInsert robot_id ctx st.active_robot_streams
    robot_audio_buffers := kvInsert robot_id [] st.robot_audio_buffers }

/-- `server.py` lines 287-291: the `cleanup` closure —
`active_robot_streams.pop(robot_id, None)` and
`robot_audio_buffers.pop(robot_id, None)`; `pop` with a default is a no-op
when the key is absent. -/
def communicate_cleanup (robot_id : String) (st : ServerConnState) :
    ServerConnState :=
  { active_robot_streams := kvErase robot_id st.active_robot_streams
    robot_audio_buffers := kvErase robot_id st.robot_audio_buffers }

/-- The possible causes of stream termination. -/
inductive TermCause where
  | clientDisconnect : TermCause
  | transportError : TermCause
  | cancelledStream : TermCause
  | exhausted : TermCause
deriving DecidableEq, Repr

/-- `server.py` line 293: `context.add_done_callback(... cleanup ...)` —
the gRPC runtime fires the done callback on every termination of the RPC,
whatever its cause, so termination is modelled as running `cleanup`
unconditionally of the cause. -/
def communicate_terminate (_cause : TermCause) (robot_id : String)
    (st : ServerConnState) : ServerConnState :=
  communicate_cleanup robot_id st

/-! ## Command-sending tools (`robot_commands.py`) -/

/-- The `_invocation_context` attribute of the ADK `ToolContext`:
`user_id` is used as the robot id, `session.id` as the session id.
Either may be missing (`None`). -/
structure InvocationCtx where
  user_id : Option String
  session_id : Option String
deriving DecidableEq, Repr

/-- The `tool_context` argument; its `_invocation_context` may be missing. -/
structure ToolCtx where
  invocation_ctx : Option InvocationCtx
deriving DecidableEq, Repr

/-- Python truthiness of an optional string: `None` and `""` are falsy. -/
def truthyStr : Option String → Bool
  | none => false
  | some s => !s.isEmpty

/-- `grpc_context_manager.py` lines 24-37: `get_grpc_context_by_robot_id` —
returns `None` when the streams map is unset/empty (line 28) or the robot id
has no entry (line 32). -/
def get_grpc_context_by_robot_id (streams : List (String × Nat))
    (robot_id : String) : Option Nat :=
  if streams.isEmpty then none else kvLookup robot_id streams

/-- `robot_commands.py` lines 23-48: `_get_grpc_context` — extracts the robot
id from `tool_context._invocation_context.user_id` (each step may yield
`None`, and an empty string is falsy) and looks the connection up. -/
def getGrpcContextOfTool (tool_context : Option ToolCtx)
    (streams : List (String × Nat)) : Option Nat :=
  match tool_context with
  | none => none
  | some tc =>
    match tc.invocation_ctx with
    | none => none
    | some inv =>
      match inv.user_id with
      | none => none
      | some rid =>
        if rid.isEmpty then none
        else get_grpc_context_by_robot_id streams rid

/-- The command payload embedded in the outbound `RobotCommand` frame
(the oneof in `CloudToRobotMessage.robot_command`). -/
inductive RobotCommandPayload where
  | moveCommand : Option Rat → Option Rat → RobotCommandPayload
  | ledCommand : Option String → Option Rat → Option String → Bool →
      RobotCommandPayload
  | cameraCommand : String → RobotCommandPayload
  | systemInfoPower : RobotCommandPayload
  | voiceSettings : Rat → RobotCommandPayload
  | findObject : String → RobotCommandPayload
  | cancelCommand : Option String → RobotCommandPayload
deriving DecidableEq, Repr

/-- Outcome of a tool invocation, up to the outbound write: either an error
string returned to the caller before any write is attempted, or a write
attempt of a frame carrying the session id and the command payload.
(The fresh uuid-based command id is not modelled.) -/
inductive ToolStep where
  | errorResult : String → ToolStep
  | writeAttempt : String → RobotCommandPayload → ToolStep
deriving DecidableEq, Repr

/-- Whether a tool outcome is an error result. -/
def ToolStep.isError : ToolStep → Bool
  | .errorResult _ => true
  | _ => false

/-- `robot_commands.py` lines 52-102: `move_shimmy_tool` — validates the
invocation context (lines 65-68), robot/session ids (lines 70-75), and the
gRPC context (lines 77-79) before constructing and writing the frame. -/
def move_shimmy_tool (target_linear_distance_meters target_angular_degrees :
    Option Rat) (tool_context : Option ToolCtx)
    (streams : List (String × Nat)) : ToolStep :=
  match tool_context.bind ToolCtx.invocation_ctx with
  | none => .errorResult "Error: Invocation context missing, cannot execute move command."
  | some inv =>
    if truthyStr inv.user_id && truthyStr inv.session_id then
      match getGrpcContextOfTool tool_context streams with
      | none => .errorResult "Error: Cannot send command (gRPC context or protobuf missing)."
      | some _ =>
        .writeAttempt (inv.session_id.getD "")
          (.moveCommand target_linear_distance_meters target_angular_degrees)
    else .errorResult "Error: Robot/Session ID missing, cannot execute move command."

/-- `robot_commands.py` lines 104-114: `turn_shimmy_tool` — delegates to
`move_shimmy_tool` with `target_linear_distance_meters=None`. -/
def turn_shimmy_tool (target_angular_degrees : Rat)
    (tool_context : Option ToolCtx) (streams : List (String × Nat)) : ToolStep :=
  move_shimmy_tool none (some target_angular_degrees) tool_context streams

/-- `robot_commands.py` lines 116-166: `set_led_tool`. -/
def set_led_tool (color_hex : Option String) (brightness : Option Rat)
    (pattern : Option String) (turn_off : Bool) (tool_context : Option ToolCtx)
    (streams : List (String × Nat)) : ToolStep :=
  match tool_context.bind ToolCtx.invocation_ctx with
  | none => .errorResult "Error: Invocation context missing, cannot execute LED command."
  | some inv =>
    if truthyStr inv.user_id && truthyStr inv.session_id then
      match getGrpcContextOfTool tool_context streams with
      | none => .errorResult "Error: Cannot send command (gRPC context or protobuf missing)."
      | some _ =>
        .writeAttempt (inv.session_id.getD "")
          (.ledCommand color_hex brightness pattern turn_off)
    else .errorResult "Error: Robot/Session ID missing, cannot execute LED command."

/-- `robot_commands.py` lines 169-217: `capture_image_tool` — after the
common validation, additionally rejects a capture type that is not a member
of the `CaptureType` enum (lines 193-197). -/
def capture_image_tool (capture_type : String) (tool_context : Option ToolCtx)
    (streams : List (String × Nat)) : ToolStep :=
  match tool_context.bind ToolCtx.invocation_ctx with
  | none => .errorResult "Error: Invocation context missing, cannot execute camera command."
  | some inv =>
    if truthyStr inv.user_id && truthyStr inv.session_id then
      match getGrpcContextOfTool tool_context streams with
      | none => .errorResult "Error: Cannot send command (gRPC context or protobuf missing)."
      | some _ =>
        if capture_type.toUpper = "RGB_IMAGE" ∨ capture_type.toUpper = "DEPTH_IMAGE" then
          .writeAttempt (inv.session_id.getD "") (.cameraCommand capture_type.toUpper)
        else .errorResult "Error: Invalid capture type specified."
    else .errorResult "Error: Robot/Session ID missing, cannot execute camera command."

/-- `robot_commands.py` lines 220-238: the validation prefix of
`get_power_status_tool`, which runs before any pending-request registration
or write. -/
def get_power_status_tool_validate (tool_context : Option ToolCtx)
    (streams : List (String × Nat)) : ToolStep :=
  match tool_context.bind ToolCtx.invocation_ctx with
  | none => .errorResult "Error: Invocation context missing, cannot get power status."
  | some inv =>
    if truthyStr inv.user_id && truthyStr inv.session_id then
      match getGrpcContextOfTool tool_context streams with
      | none => .errorResult "Error: Cannot send command (gRPC context or protobuf missing)."
      | some _ => .writeAttempt (inv.session_id.getD "") .systemInfoPower
    else .errorResult "Error: Robot/Session ID missing, cannot get power status."

/-- `robot_commands.py` line 302: `max(0.0, min(1.0, volume_level))`. -/
def clampVolume (volume_level : Rat) : Rat := max 0 (min 1 volume_level)

/-- `robot_commands.py` lines 281-322: `set_voice_volume_tool` — validates,
clamps the volume (line 302), and embeds the clamped value in the
`VoiceSettingsCommand` payload (line 305). -/
def set_voice_volume_tool (volume_level : Rat) (tool_context : Option ToolCtx)
    (streams : List (String × Nat)) : ToolStep :=
  match tool_context.bind ToolCtx.invocation_ctx with
  | none => .errorResult "Error: Invocation context missing, cannot execute volume command."
  | some inv =>
    if truthyStr inv.user_id && truthyStr inv.session_id then
      match getGrpcContextOfTool tool_context streams with
      | none => .errorResult "Error: Cannot send command (gRPC context or protobuf missing)."
      | some _ =>
        .writeAttempt (inv.session_id.getD "")
          (.voiceSettings (clampVolume volume_level))
    else .errorResult "Error: Robot/Session ID missing, cannot execute volume command."

/-- `robot_commands.py` lines 325-362: `find_object_tool`. -/
def find_object_tool (object_name : String) (tool_context : Option ToolCtx)
    (streams : List (String × Nat)) : ToolStep :=
  match tool_context.bind ToolCtx.invocation_ctx with
  | none => .errorResult "Error: Invocation context missing, cannot execute find_object command."
  | some inv =>
    if truthyStr inv.user_id && truthyStr inv.session_id then
      match getGrpcContextOfTool tool_context streams with
      | none => .errorResult "Error: Cannot send command (gRPC context or protobuf missing)."
      | some _ => .writeAttempt (inv.session_id.getD "") (.findObject object_name)
    else .errorResult "Error: Robot/Session ID missing, cannot execute find_object command."

/-- `robot_commands.py` lines 365-410: `cancel_movement_tool`. -/
def cancel_movement_tool (command_id_to_cancel : Option String)
    (tool_context : Option ToolCtx) (streams : List (String × Nat)) : ToolStep :=
  match tool_context.bind ToolCtx.invocation_ctx with
  | none => .errorResult "Error: Invocation context missing, cannot execute cancel command."
  | some inv =>
    if truthyStr inv.user_id && truthyStr inv.session_id then
      match getGrpcContextOfTool tool_context streams with
      | none => .errorResult "Error: Cannot send command (gRPC context or protobuf missing)."
      | some _ =>
        .writeAttempt (inv.session_id.getD "") (.cancelCommand command_id_to_cancel)
    else .errorResult "Error: Robot/Session ID missing, cannot execute cancel command."

/-- The hypothesis of claim C8: the invocation context is missing, the robot
or session id is missing/empty, or no connection is registered for the robot
id. -/
def contextInvalid (tool_context : Option ToolCtx)
    (streams : List (String × Nat)) : Bool :=
  match tool_context.bind ToolCtx.invocation_ctx with
  | none => true
  | some inv =>
    !truthyStr inv.user_id || !truthyStr inv.session_id ||
      (match inv.user_id with
       | none => true
       | some rid => (get_grpc_context_by_robot_id streams rid).isNone)

/-! ## send-and-await facade (`get_power_status_tool`, lines 240-278) -/

/-- The send-failure path of `get_power_status_tool`: the pending slot is
registered (lines 253-254) before `grpc_context.write` is attempted
(line 258); when the write raises, the `except` handler (lines 275-278)
resolves the tool's own pending slot and returns the error string. -/
def get_power_status_send_fail (command_id errText : String) (s : PState) :
    String × PState :=
  let s1 := registerPowerRequest command_id s
  let r := resolve_pending_power_request command_id
    ("Error: Failed to send command: " ++ errText) s1
  ("Error sending power status request (ID: " ++ command_id ++ "): " ++ errText,
   r.2)

/-- Global well-formedness of the pending-request state, maintained by every
step: awaiter future-ids are below the fresh counter and pairwise distinct,
every table binding points to the future its awaiter holds, and a future
still bound in the table is never in the `resolved` state (resolution always
pops the binding first). -/
structure GInv (s : PState) : Prop where
  fidBound : ∀ p ∈ s.awaiters, p.2 < s.nextId
  tableAwaiter : ∀ c f, kvLookup c s.table = some f → (c, f) ∈ s.awaiters
  fidNodup : (s.awaiters.map Prod.snd).Nodup
  tableNotResolved : ∀ c f v, kvLookup c s.table = some f →
    kvLookup f s.futures ≠ some (Future.resolved v)

/-- Number of awaiters registered for a given command id. -/
def cidAwaiterCount (cid : String) (l : List (String × Nat)) : Nat :=
  (l.filter (fun p => p.1 == cid)).length

/-! ## Association-list lemmas -/

theorem kvLookup_kvErase_self {κ β : Type} [DecidableEq κ] (k : κ)
    (l : List (κ × β)) : kvLookup k (kvErase k l) = none := by
  induction l with
  | nil => rfl
  | cons p t ih =>
    by_cases h : p.1 = k
    · simpa [kvErase, h] using ih
    · simpa [kvErase, kvLookup, h] using ih

theorem kvLookup_kvErase_ne {κ β : Type} [DecidableEq κ] {k k' : κ}
    (l : List (κ × β)) (h : k' ≠ k) :
    kvLookup k' (kvErase k l) = kvLookup k' l := by
  induction l with
  | nil => rfl
  | cons p t ih =>
    by_cases hp : p.1 = k
    · have hk : ¬ (k = k') := fun e => h e.symm
      simp [kvErase, kvLookup, hp, hk, ih]
    · simp [kvErase, kvLookup, hp, ih]

theorem kvLookup_kvInsert_self {κ β : Type} [DecidableEq κ] (k : κ) (v : β)
    (l : List (κ × β)) : kvLookup k (kvInsert k v l) = some v := by
  simp [kvInsert, kvLookup]

theorem kvLookup_kvInsert_ne {κ β : Type} [DecidableEq κ] {k k' : κ} (v : β)
    (l : List (κ × β)) (h : k' ≠ k) :
    kvLookup k' (kvInsert k v l) = kvLookup k' l := by
  have : k ≠ k' := fun e => h e.symm
  simp [kvInsert, kvLookup, this, kvLookup_kvErase_ne l h]

theorem kvErase_idem {κ β : Type} [DecidableEq κ] (k : κ) (l : List (κ × β)) :
    kvErase k (kvErase k l) = kvErase k l := by
  induction l with
  | nil => rfl
  | cons p t ih =>
    by_cases h : p.1 = k
    · simp [kvErase, h, ih]
    · simp [kvErase, h, ih]

theorem kvLookup_kvErase_some {κ β : Type} [DecidableEq κ] {k k' : κ} {v : β}
    {l : List (κ × β)} (h : kvLookup k' (kvErase k l) = some v) :
    k' ≠ k ∧ kvLookup k' l = some v := by
  by_cases hk : k' = k
  · subst hk; rw [kvLookup_kvErase_self] at h; cases h
  · exact ⟨hk, by rwa [kvLookup_kvErase_ne l hk] at h⟩

/-! ## Basic lemmas about `resolve_pending_power_request` -/

theorem resolve_table_self (cid v : String) (s : PState) :
    kvLookup cid (resolve_pending_power_request cid v s).2.table = none := by
  unfold resolve_pending_power_request
  cases h : kvLookup cid s.table with
  | none => simpa using h
  | some fid =>
    by_cases hf : kvLookup fid s.futures = some Future.pending
    · simp [hf, kvLookup_kvErase_self]
    · simp [hf, kvLookup_kvErase_self]

theorem resolve_table_ne {c cid : String} (v : String) (s : PState)
    (h : c ≠ cid) :
    kvLookup c (resolve_pending_power_request cid v s).2.table =
      kvLookup c s.table := by
  unfold resolve_pending_power_request
  cases hl : kvLookup cid s.table with
  | none => simp
  | some fid =>
    by_cases hf : kvLookup fid s.futures = some Future.pending
    · simp [hf, kvLookup_kvErase_ne _ h]
    · simp [hf, kvLookup_kvErase_ne _ h]

theorem resolve_false_of_none {cid : String} (v : String) (s : PState)
    (h : kvLookup cid s.table = none) :
    resolve_pending_power_request cid v s = (false, s) := by
  unfold resolve_pending_power_request
  simp [h]

theorem resolve_futures_of_false {cid v : String} {s : PState}
    (h : (resolve_pending_power_request cid v s).1 = false) :
    (resolve_pending_power_request cid v s).2.futures = s.futures := by
  unfold resolve_pending_power_request at *
  cases hl : kvLookup cid s.table with
  | none => simp
  | some fid =>
    by_cases hf : kvLookup fid s.futures = some Future.pending
    · rw [hl] at h; simp [hf] at h
    · simp [hl, hf]

theorem resolve_awaiters_eq (cid v : String) (s : PState) :
    (resolve_pending_power_request cid v s).2.awaiters = s.awaiters := by
  unfold resolve_pending_power_request
  cases hl : kvLookup cid s.table with
  | none => simp
  | some fid =>
    by_cases hf : kvLookup fid s.futures = some Future.pending
    · simp [hf]
    · simp [hf]

theorem resolve_nextId_eq (cid v : String) (s : PState) :
    (resolve_pending_power_request cid v s).2.nextId = s.nextId := by
  unfold resolve_pending_power_request
  cases hl : kvLookup cid s.table with
  | none => simp
  | some fid =>
    by_cases hf : kvLookup fid s.futures = some Future.pending
    · simp [hf]
    · simp [hf]

theorem resolve_true_iff (cid v : String) (s : PState) :
    (resolve_pending_power_request cid v s).1 = true ↔
      ∃ fid, kvLookup cid s.table = some fid ∧
        kvLookup fid s.futures = some Future.pending := by
  unfold resolve_pending_power_request
  cases hl : kvLookup cid s.table with
  | none => simp
  | some fid =>
    by_cases hf : kvLookup fid s.futures = some Future.pending
    · simp [hf]
    · simp [hf]

/-! ## Awaiter bookkeeping lemmas -/

theorem snd_nodup_eq_fst {l : List (String × Nat)} {a a' : String} {b : Nat}
    (hnd : (l.map Prod.snd).Nodup) (h1 : (a, b) ∈ l) (h2 : (a', b) ∈ l) :
    a = a' := by
  induction l with
  | nil => cases h1
  | cons p t ih =>
    rw [List.map_cons, List.nodup_cons] at hnd
    rcases List.mem_cons.mp h1 with e1 | m1
    · rcases List.mem_cons.mp h2 with e2 | m2
      · exact congrArg Prod.fst (e1.trans e2.symm)
      · exfalso
        apply hnd.1
        have hm : Prod.snd (a', b) ∈ List.map Prod.snd t :=
          List.mem_map_of_mem Prod.snd m2
        rw [← e1]
        exact hm
    · rcases List.mem_cons.mp h2 with e2 | m2
      · exfalso
        apply hnd.1
        have hm : Prod.snd (a, b) ∈ List.map Prod.snd t :=
          List.mem_map_of_mem Prod.snd m1
        rw [← e2]
        exact hm
      · exact ih hnd.2 m1 m2

theorem cidAwaiterCount_zero_not_mem {cid : String} {l : List (String × Nat)}
    (h : cidAwaiterCount cid l = 0) (f : Nat) : (cid, f) ∉ l := by
  intro hmem
  unfold cidAwaiterCount at h
  rw [List.length_eq_zero] at h
  have : (cid, f) ∈ l.filter (fun p => p.1 == cid) :=
    List.mem_filter.mpr ⟨hmem, by simp⟩
  rw [h] at this
  cases this

theorem cidAwaiterCount_le_one_eq {cid : String} {l : List (String × Nat)}
    {f f' : Nat} (h : cidAwaiterCount cid l ≤ 1) (h1 : (cid, f) ∈ l)
    (h2 : (cid, f') ∈ l) : f = f' := by
  induction l with
  | nil => cases h1
  | cons p t ih =>
    by_cases hp : p.1 = cid
    · have hz : cidAwaiterCount cid t = 0 := by
        simp only [cidAwaiterCount] at h ⊢
        rw [List.filter_cons_of_pos (by simp [hp])] at h
        simp only [List.length_cons] at h
        omega
      rcases List.mem_cons.mp h1 with h1 | h1 <;>
        rcases List.mem_cons.mp h2 with h2 | h2
      · rw [show f = p.2 from congrArg Prod.snd h1,
          show f' = p.2 from congrArg Prod.snd h2]
      · exact absurd h2 (cidAwaiterCount_zero_not_mem hz f')
      · exact absurd h1 (cidAwaiterCount_zero_not_mem hz f)
      · exact absurd h1 (cidAwaiterCount_zero_not_mem hz f)
    · have hc : cidAwaiterCount cid t ≤ 1 := by
        simp only [cidAwaiterCount] at h ⊢
        rwa [List.filter_cons_of_neg (by simp [hp])] at h
      rcases List.mem_cons.mp h1 with h1 | h1
      · exact absurd (congrArg Prod.fst h1).symm hp
      · rcases List.mem_cons.mp h2 with h2 | h2
        · exact absurd (congrArg Prod.fst h2).symm hp
        · exact ih hc h1 h2

/-! ## GInv preservation -/

theorem GInv_init : GInv initState := by
  refine ⟨?_, ?_, ?_, ?_⟩
  · intro p hp; cases hp
  · intro c f hc; simp [initState, kvLookup] at hc
  · simp [initState]
  · intro c f v hc; simp [initState, kvLookup] at hc

theorem GInv_resolve {s : PState} (cid v : String) (h : GInv s) :
    GInv (resolve_pending_power_request cid v s).2 := by
  unfold resolve_pending_power_request
  cases hl : kvLookup cid s.table with
  | none => simpa using h
  | some fid =>
    by_cases hf : kvLookup fid s.futures = some Future.pending
    · simp only [hf, if_true]
      constructor
      · exact h.fidBound
      · intro c f hc
        exact h.tableAwaiter c f (kvLookup_kvErase_some hc).2
      · exact h.fidNodup
      · intro c f v' hc
        obtain ⟨hne, hc'⟩ := kvLookup_kvErase_some hc
        by_cases hffid : f = fid
        · subst hffid
          have hm1 := h.tableAwaiter c f hc'
          have hm2 := h.tableAwaiter cid f hl
          exact absurd (snd_nodup_eq_fst h.fidNodup hm1 hm2) hne
        · rw [kvLookup_kvInsert_ne _ _ hffid]
          exact h.tableNotResolved c f v' hc'
    · simp only [hf, if_false]
      constructor
      · exact h.fidBound
      · intro c f hc
        exact h.tableAwaiter c f (kvLookup_kvErase_some hc).2
      · exact h.fidNodup
      · intro c f v' hc
        exact h.tableNotResolved c f v' (kvLookup_kvErase_some hc).2

theorem GInv_register {s : PState} (cid : String) (h : GInv s) :
    GInv (registerPowerRequest cid s) := by
  unfold registerPowerRequest newFuture add_pending_power_request
  constructor
  · intro p hp
    rcases List.mem_cons.mp hp with hp | hp
    · subst hp; exact Nat.lt_succ_self _
    · exact Nat.lt_succ_of_lt (h.fidBound p hp)
  · intro c f hc
    by_cases hcc : c = cid
    · subst hcc
      rw [kvLookup_kvInsert_self] at hc
      cases hc
      exact List.mem_cons_self _ _
    · rw [kvLookup_kvInsert_ne _ _ hcc] at hc
      exact List.mem_cons_of_mem _ (h.tableAwaiter c f hc)
  · rw [List.map_cons, List.nodup_cons]
    refine ⟨fun hmem => ?_, h.fidNodup⟩
    obtain ⟨p, hp, hps⟩ := List.mem_map.mp hmem
    exact absurd (hps ▸ h.fidBound p hp) (Nat.lt_irrefl _)
  · intro c f v hc
    by_cases hcc : c = cid
    · subst hcc
      rw [kvLookup_kvInsert_self] at hc
      cases hc
      rw [kvLookup_kvInsert_self]
      intro he
      cases he
    · rw [kvLookup_kvInsert_ne _ _ hcc] at hc
      have hfb : f < s.nextId := h.fidBound _ (h.tableAwaiter c f hc)
      rw [kvLookup_kvInsert_ne _ _ (Nat.ne_of_lt hfb)]
      exact h.tableNotResolved c f v hc

theorem GInv_step {s : PState} (op : Op) (h : GInv s) : GInv (step s op).1 := by
  cases op with
  | addReq cid => exact GInv_register cid h
  | resolveReq cid v => exact GInv_resolve cid v h
  | timeoutFire cid fid =>
    simp only [step]
    split
    · next hcond =>
      constructor
      · exact h.fidBound
      · exact h.tableAwaiter
      · exact h.fidNodup
      · intro c f v hc
        by_cases hffid : f = fid
        · subst hffid
          rw [kvLookup_kvInsert_self]
          intro he
          cases he
        · rw [kvLookup_kvInsert_ne _ _ hffid]
          exact h.tableNotResolved c f v hc
    · exact h
  | timeoutHandle cid fid =>
    simp only [step]
    split
    · exact GInv_resolve cid timeoutResolveMsg h
    · exact h
  | awaitValue cid fid =>
    simp only [step]
    split
    · split
      · exact h
      · exact h
    · exact h

theorem GInv_run {s : PState} (ops : List Op) (h : GInv s) :
    GInv (run s ops).1 := by
  induction ops generalizing s with
  | nil => exact h
  | cons op ops ih => exact ih (GInv_step op h)

/-! ## Counting lemmas -/

theorem countTrueResolves_append (cid : String) (l1 l2 : List Event) :
    countTrueResolves cid (l1 ++ l2) =
      countTrueResolves cid l1 + countTrueResolves cid l2 := by
  simp [countTrueResolves, List.filter_append]

theorem countTrueResolves_cons (cid : String) (e : Event) (evs : List Event) :
    countTrueResolves cid (e :: evs) =
      (if isTrueResolveOf cid e = true then 1 else 0) +
        countTrueResolves cid evs := by
  simp only [countTrueResolves, List.filter_cons]
  split
  · simp [Nat.add_comm]
  · simp

theorem countAdds_cons (cid : String) (op : Op) (ops : List Op) :
    countAdds cid (op :: ops) =
      (if isAddOf cid op = true then 1 else 0) + countAdds cid ops := by
  simp only [countAdds, List.filter_cons]
  split
  · simp [Nat.add_comm]
  · simp

theorem run_cons (s : PState) (op : Op) (ops : List Op) :
    run s (op :: ops) =
      ((run (step s op).1 ops).1, (step s op).2 ++ (run (step s op).1 ops).2) :=
  rfl

/-- Every step other than an `addReq` for `cid` preserves the absence of
`cid` from the table. -/
theorem step_table_none {cid : String} (s : PState) (op : Op)
    (hop : isAddOf cid op = false) (h : kvLookup cid s.table = none) :
    kvLookup cid (step s op).1.table = none := by
  cases op with
  | addReq c =>
    have hc : ¬ (c = cid) := by simpa [isAddOf] using hop
    simp only [step, registerPowerRequest, add_pending_power_request, newFuture]
    rw [kvLookup_kvInsert_ne _ _ (fun e => hc e.symm)]
    exact h
  | resolveReq c v =>
    by_cases hc : cid = c
    · subst hc
      exact resolve_table_self _ _ _
    · show kvLookup cid (resolve_pending_power_request c v s).2.table = none
      rw [resolve_table_ne v s hc]
      exact h
  | timeoutFire c fid =>
    simp only [step]
    split
    · exact h
    · exact h
  | timeoutHandle c fid =>
    simp only [step]
    split
    · by_cases hc : cid = c
      · subst hc
        exact resolve_table_self _ _ _
      · show kvLookup cid
          (resolve_pending_power_request c timeoutResolveMsg s).2.table = none
        rw [resolve_table_ne timeoutResolveMsg s hc]
        exact h
    · exact h
  | awaitValue c fid =>
    simp only [step]
    split
    · split
      · exact h
      · exact h
    · exact h

theorem countTrueResolves_nil (cid : String) : countTrueResolves cid [] = 0 :=
  rfl

theorem countTrueResolves_resolveEv (cid c : String) (b : Bool) :
    countTrueResolves cid [Event.resolveReturned c b] =
      if b && (c == cid) then 1 else 0 := by
  rw [countTrueResolves_cons, countTrueResolves_nil]
  by_cases h : (b && (c == cid)) = true
  · rw [if_pos h]
    have : isTrueResolveOf cid (Event.resolveReturned c b) = true := h
    rw [if_pos this]
  · rw [if_neg h]
    have : ¬ isTrueResolveOf cid (Event.resolveReturned c b) = true := h
    rw [if_neg this]

theorem countTrueResolves_awaitEv (cid c : String) (r : AwaitRes) :
    countTrueResolves cid [Event.awaitReturned c r] = 0 := by
  rw [countTrueResolves_cons, countTrueResolves_nil]
  have : ¬ isTrueResolveOf cid (Event.awaitReturned c r) = true := by
    simp [isTrueResolveOf]
  rw [if_neg this]

theorem countTrueResolves_timeoutEvs (cid c : String) (b : Bool) :
    countTrueResolves cid
        [Event.resolveReturned c b, Event.awaitReturned c AwaitRes.timedOut] =
      if b && (c == cid) then 1 else 0 := by
  rw [countTrueResolves_cons]
  rw [countTrueResolves_awaitEv]
  by_cases h : (b && (c == cid)) = true
  · rw [if_pos h]
    have : isTrueResolveOf cid (Event.resolveReturned c b) = true := h
    rw [if_pos this]
  · rw [if_neg h]
    have : ¬ isTrueResolveOf cid (Event.resolveReturned c b) = true := h
    rw [if_neg this]

/-- If no step adds `cid` and `cid` is absent from the table, no resolve of
`cid` ever returns `true`. -/
theorem trueResolves_zero (cid : String) (ops : List Op) :
    ∀ s : PState, countAdds cid ops = 0 → kvLookup cid s.table = none →
      countTrueResolves cid (run s ops).2 = 0 := by
  induction ops with
  | nil => intro s _ _; rfl
  | cons op ops ih =>
    intro s hadds hnone
    rw [countAdds_cons] at hadds
    have hadds' : countAdds cid ops = 0 := by omega
    have hop : isAddOf cid op = false := by
      by_cases hb : isAddOf cid op = true
      · rw [if_pos hb] at hadds; omega
      · simpa using hb
    have hnone' := step_table_none s op hop hnone
    rw [run_cons, countTrueResolves_append, ih _ hadds' hnone']
    rw [Nat.add_zero]
    cases op with
    | addReq c => rfl
    | resolveReq c v =>
      rw [show (step s (Op.resolveReq c v)).2 =
        [Event.resolveReturned c (resolve_pending_power_request c v s).1] from rfl]
      rw [countTrueResolves_resolveEv]
      by_cases hc : c = cid
      · have hres : (resolve_pending_power_request c v s).1 = false := by
          rw [hc, resolve_false_of_none v s hnone]
        rw [hres]
        rfl
      · have hbeq : (c == cid) = false := by
          exact beq_eq_false_iff_ne.mpr hc
        rw [hbeq, Bool.and_false]
        rfl
    | timeoutFire c fid =>
      by_cases hP : (c, fid) ∈ s.awaiters ∧
          kvLookup fid s.futures = some Future.pending
      · rw [show (step s (Op.timeoutFire c fid)).2 = [] by
          simp only [step, if_pos hP]]
        rfl
      · rw [show (step s (Op.timeoutFire c fid)).2 = [] by
          simp only [step, if_neg hP]]
        rfl
    | timeoutHandle c fid =>
      by_cases hP : (c, fid) ∈ s.awaiters ∧
          kvLookup fid s.futures = some Future.cancelled
      · rw [show (step s (Op.timeoutHandle c fid)).2 =
          [Event.resolveReturned c
            (resolve_pending_power_request c timeoutResolveMsg s).1,
           Event.awaitReturned c AwaitRes.timedOut] by
          simp only [step, if_pos hP]]
        rw [countTrueResolves_timeoutEvs]
        by_cases hc : c = cid
        · have hres : (resolve_pending_power_request c timeoutResolveMsg s).1 =
              false := by
            rw [hc, resolve_false_of_none timeoutResolveMsg s hnone]
          rw [hres]
          rfl
        · have hbeq : (c == cid) = false := beq_eq_false_iff_ne.mpr hc
          rw [hbeq, Bool.and_false]
          rfl
      · rw [show (step s (Op.timeoutHandle c fid)).2 = [] by
          simp only [step, if_neg hP]]
        rfl
    | awaitValue c fid =>
      cases hf : kvLookup fid s.futures with
      | none =>
        rw [show (step s (Op.awaitValue c fid)).2 = [] by
          simp only [step, hf]]
        rfl
      | some fut =>
        cases fut with
        | pending =>
          rw [show (step s (Op.awaitValue c fid)).2 = [] by
            simp only [step, hf]]
          rfl
        | cancelled =>
          rw [show (step s (Op.awaitValue c fid)).2 = [] by
            simp only [step, hf]]
          rfl
        | resolved v =>
          by_cases hm : (c, fid) ∈ s.awaiters
          · rw [show (step s (Op.awaitValue c fid)).2 =
              [Event.awaitReturned c (AwaitRes.value v)] by
              simp only [step, hf, if_pos hm]]
            rw [countTrueResolves_awaitEv]
          · rw [show (step s (Op.awaitValue c fid)).2 = [] by
              simp only [step, hf, if_neg hm]]
            rfl

/-- If no step adds `cid`, at most one resolve of `cid` returns `true`,
from any starting state. -/
theorem trueResolves_le_one (cid : String) (ops : List Op) :
    ∀ s : PState, countAdds cid ops = 0 →
      countTrueResolves cid (run s ops).2 ≤ 1 := by
  induction ops with
  | nil => intro s _; exact Nat.zero_le 1
  | cons op ops ih =>
    intro s hadds
    rw [countAdds_cons] at hadds
    have hadds' : countAdds cid ops = 0 := by omega
    rw [run_cons, countTrueResolves_append]
    cases op with
    | addReq c =>
      rw [show countTrueResolves cid (step s (Op.addReq c)).2 = 0 from rfl]
      rw [Nat.zero_add]
      exact ih _ hadds'
    | resolveReq c v =>
      rw [show (step s (Op.resolveReq c v)).2 =
        [Event.resolveReturned c (resolve_pending_power_request c v s).1] from rfl]
      rw [countTrueResolves_resolveEv]
      by_cases hg : ((resolve_pending_power_request c v s).1 && (c == cid)) = true
      · rw [if_pos hg]
        have hc : c = cid := beq_iff_eq.mp (Bool.and_elim_right hg)
        have hz : countTrueResolves cid
            (run (resolve_pending_power_request c v s).2 ops).2 = 0 := by
          apply trueResolves_zero cid ops _ hadds'
          rw [← hc]
          exact resolve_table_self c v s
        rw [show (step s (Op.resolveReq c v)).1 =
          (resolve_pending_power_request c v s).2 from rfl]
        rw [hz]
      · rw [if_neg hg, Nat.zero_add]
        exact ih _ hadds'
    | timeoutFire c fid =>
      by_cases hP : (c, fid) ∈ s.awaiters ∧
          kvLookup fid s.futures = some Future.pending
      · rw [show (step s (Op.timeoutFire c fid)).2 = [] by
          simp only [step, if_pos hP]]
        rw [countTrueResolves_nil, Nat.zero_add]
        exact ih _ hadds'
      · rw [show (step s (Op.timeoutFire c fid)).2 = [] by
          simp only [step, if_neg hP]]
        rw [countTrueResolves_nil, Nat.zero_add]
        exact ih _ hadds'
    | timeoutHandle c fid =>
      by_cases hP : (c, fid) ∈ s.awaiters ∧
          kvLookup fid s.futures = some Future.cancelled
      · rw [show (step s (Op.timeoutHandle c fid)).2 =
          [Event.resolveReturned c
            (resolve_pending_power_request c timeoutResolveMsg s).1,
           Event.awaitReturned c AwaitRes.timedOut] by
          simp only [step, if_pos hP]]
        rw [show (step s (Op.timeoutHandle c fid)).1 =
          (resolve_pending_power_request c timeoutResolveMsg s).2 by
          simp only [step, if_pos hP]]
        rw [countTrueResolves_timeoutEvs]
        by_cases hg : ((resolve_pending_power_request c timeoutResolveMsg s).1 &&
            (c == cid)) = true
        · rw [if_pos hg]
          have hc : c = cid := beq_iff_eq.mp (Bool.and_elim_right hg)
          have hz : countTrueResolves cid
              (run (resolve_pending_power_request c timeoutResolveMsg s).2 ops).2 =
                0 := by
            apply trueResolves_zero cid ops _ hadds'
            rw [← hc]
            exact resolve_table_self c timeoutResolveMsg s
          rw [hz]
        · rw [if_neg hg, Nat.zero_add]
          exact ih _ hadds'
      · rw [show (step s (Op.timeoutHandle c fid)).2 = [] by
          simp only [step, if_neg hP]]
        rw [show (step s (Op.timeoutHandle c fid)).1 = s by
          simp only [step, if_neg hP]]
        rw [countTrueResolves_nil, Nat.zero_add]
        exact ih _ hadds'
    | awaitValue c fid =>
      cases hf : kvLookup fid s.futures with
      | none =>
        rw [show step s (Op.awaitValue c fid) = (s, []) by
          simp only [step, hf]]
        rw [countTrueResolves_nil, Nat.zero_add]
        exact ih _ hadds'
      | some fut =>
        cases fut with
        | pending =>
          rw [show step s (Op.awaitValue c fid) = (s, []) by
            simp only [step, hf]]
          rw [countTrueResolves_nil, Nat.zero_add]
          exact ih _ hadds'
        | cancelled =>
          rw [show step s (Op.awaitValue c fid) = (s, []) by
            simp only [step, hf]]
          rw [countTrueResolves_nil, Nat.zero_add]
          exact ih _ hadds'
        | resolved v =>
          by_cases hm : (c, fid) ∈ s.awaiters
          · rw [show step s (Op.awaitValue c fid) =
              (s, [Event.awaitReturned c (AwaitRes.value v)]) by
              simp only [step, hf, if_pos hm]]
            rw [countTrueResolves_awaitEv, Nat.zero_add]
            exact ih _ hadds'
          · rw [show step s (Op.awaitValue c fid) = (s, []) by
              simp only [step, hf, if_neg hm]]
            rw [countTrueResolves_nil, Nat.zero_add]
            exact ih _ hadds'

/-- Main counting lemma: with at most one `addReq` for `cid` and `cid`
initially absent from the table, at most one resolve of `cid` returns
`true`. -/
theorem trueResolves_le_one_main (cid : String) (ops : List Op) :
    ∀ s : PState, countAdds cid ops ≤ 1 → kvLookup cid s.table = none →
      countTrueResolves cid (run s ops).2 ≤ 1 := by
  induction ops with
  | nil => intro s _ _; exact Nat.zero_le 1
  | cons op ops ih =>
    intro s hadds hnone
    rw [countAdds_cons] at hadds
    rw [run_cons, countTrueResolves_append]
    by_cases hop : isAddOf cid op = true
    · have hadds' : countAdds cid ops = 0 := by
        rw [if_pos hop] at hadds; omega
      cases op with
      | addReq c =>
        rw [show countTrueResolves cid (step s (Op.addReq c)).2 = 0 from rfl]
        rw [Nat.zero_add]
        exact trueResolves_le_one cid ops _ hadds'
      | resolveReq c v => simp [isAddOf] at hop
      | timeoutFire c fid => simp [isAddOf] at hop
      | timeoutHandle c fid => simp [isAddOf] at hop
      | awaitValue c fid => simp [isAddOf] at hop
    · have hop' : isAddOf cid op = false := by simpa using hop
      have hadds' : countAdds cid ops ≤ 1 := by
        rw [if_neg hop] at hadds; omega
      have hnone' := step_table_none s op hop' hnone
      cases op with
      | addReq c =>
        rw [show countTrueResolves cid (step s (Op.addReq c)).2 = 0 from rfl]
        rw [Nat.zero_add]
        exact ih _ hadds' hnone'
      | resolveReq c v =>
        rw [show (step s (Op.resolveReq c v)).2 =
          [Event.resolveReturned c (resolve_pending_power_request c v s).1]
          from rfl]
        rw [countTrueResolves_resolveEv]
        by_cases hc : c = cid
        · have hres : (resolve_pending_power_request c v s).1 = false := by
            rw [hc, resolve_false_of_none v s hnone]
          rw [hres, Bool.false_and, if_neg (by simp), Nat.zero_add]
          exact ih _ hadds' hnone'
        · have hbeq : (c == cid) = false := beq_eq_false_iff_ne.mpr hc
          rw [hbeq, Bool.and_false, if_neg (by simp), Nat.zero_add]
          exact ih _ hadds' hnone'
      | timeoutFire c fid =>
        by_cases hP : (c, fid) ∈ s.awaiters ∧
            kvLookup fid s.futures = some Future.pending
        · rw [show (step s (Op.timeoutFire c fid)).2 = [] by
            simp only [step, if_pos hP]]
          rw [countTrueResolves_nil, Nat.zero_add]
          exact ih _ hadds' hnone'
        · rw [show (step s (Op.timeoutFire c fid)).2 = [] by
            simp only [step, if_neg hP]]
          rw [countTrueResolves_nil, Nat.zero_add]
          exact ih _ hadds' hnone'
      | timeoutHandle c fid =>
        by_cases hP : (c, fid) ∈ s.awaiters ∧
            kvLookup fid s.futures = some Future.cancelled
        · rw [show (step s (Op.timeoutHandle c fid)).2 =
            [Event.resolveReturned c
              (resolve_pending_power_request c timeoutResolveMsg s).1,
             Event.awaitReturned c AwaitRes.timedOut] by
            simp only [step, if_pos hP]]
          rw [countTrueResolves_timeoutEvs]
          by_cases hc : c = cid
          · have hres : (resolve_pending_power_request c timeoutResolveMsg s).1 =
                false := by
              rw [hc, resolve_false_of_none timeoutResolveMsg s hnone]
            rw [hres, Bool.false_and, if_neg (by simp), Nat.zero_add]
            exact ih _ hadds' hnone'
          · have hbeq : (c == cid) = false := beq_eq_false_iff_ne.mpr hc
            rw [hbeq, Bool.and_false, if_neg (by simp), Nat.zero_add]
            exact ih _ hadds' hnone'
        · rw [show (step s (Op.timeoutHandle c fid)).2 = [] by
            simp only [step, if_neg hP]]
          rw [countTrueResolves_nil, Nat.zero_add]
          exact ih _ hadds' hnone'
      | awaitValue c fid =>
        cases hf : kvLookup fid s.futures with
        | none =>
          rw [show (step s (Op.awaitValue c fid)).2 = [] by
            simp only [step, hf]]
          rw [countTrueResolves_nil, Nat.zero_add]
          exact ih _ hadds' hnone'
        | some fut =>
          cases fut with
          | pending =>
            rw [show (step s (Op.awaitValue c fid)).2 = [] by
              simp only [step, hf]]
            rw [countTrueResolves_nil, Nat.zero_add]
            exact ih _ hadds' hnone'
          | cancelled =>
            rw [show (step s (Op.awaitValue c fid)).2 = [] by
              simp only [step, hf]]
            rw [countTrueResolves_nil, Nat.zero_add]
            exact ih _ hadds' hnone'
          | resolved v =>
            by_cases hm : (c, fid) ∈ s.awaiters
            · rw [show (step s (Op.awaitValue c fid)).2 =
                [Event.awaitReturned c (AwaitRes.value v)] by
                simp only [step, hf, if_pos hm]]
              rw [countTrueResolves_awaitEv, Nat.zero_add]
              exact ih _ hadds' hnone'
            · rw [show (step s (Op.awaitValue c fid)).2 = [] by
                simp only [step, hf, if_neg hm]]
              rw [countTrueResolves_nil, Nat.zero_add]
              exact ih _ hadds' hnone'
/-! ## Indexed-state lemmas -/

theorem run_append (l1 l2 : List Op) : ∀ s : PState,
    run s (l1 ++ l2) =
      ((run (run s l1).1 l2).1, (run s l1).2 ++ (run (run s l1).1 l2).2) := by
  induction l1 with
  | nil => intro s; simp [run]
  | cons op l1 ih =>
    intro s
    rw [List.cons_append, run_cons, run_cons, ih, List.append_assoc]

theorem stateAt_succ (ops : List Op) (n : Nat) (op : Op)
    (h : ops.get? n = some op) :
    stateAt ops (n + 1) = (step (stateAt ops n) op).1 := by
  unfold stateAt
  rw [List.take_succ]
  have hx : ops[n]?.toList = [op] := by
    rw [show ops[n]? = ops.get? n from (List.get?_eq_getElem? ops n).symm, h]
    rfl
  rw [hx, run_append]
  rfl

theorem countAdds_take_le (cid : String) (ops : List Op) (n : Nat) :
    countAdds cid (ops.take n) ≤ countAdds cid ops := by
  exact List.Sublist.length_le (List.Sublist.filter _ (List.take_sublist n ops))

theorem step_awaiterCount (cid : String) (s : PState) (op : Op) :
    cidAwaiterCount cid (step s op).1.awaiters =
      cidAwaiterCount cid s.awaiters +
        (if isAddOf cid op = true then 1 else 0) := by
  cases op with
  | addReq c =>
    show cidAwaiterCount cid ((c, s.nextId) :: s.awaiters) = _
    simp only [cidAwaiterCount, List.filter_cons, isAddOf]
    by_cases hc : (c == cid) = true
    · rw [if_pos (by exact hc), if_pos hc, List.length_cons]
    · rw [if_neg (by exact hc), if_neg hc]
      omega
  | resolveReq c v =>
    show cidAwaiterCount cid (resolve_pending_power_request c v s).2.awaiters = _
    rw [resolve_awaiters_eq]
    simp [isAddOf]
  | timeoutFire c fid =>
    by_cases hP : (c, fid) ∈ s.awaiters ∧
        kvLookup fid s.futures = some Future.pending
    · rw [show (step s (Op.timeoutFire c fid)).1.awaiters = s.awaiters by
        simp only [step, if_pos hP]]
      simp [isAddOf]
    · rw [show (step s (Op.timeoutFire c fid)).1.awaiters = s.awaiters by
        simp only [step, if_neg hP]]
      simp [isAddOf]
  | timeoutHandle c fid =>
    by_cases hP : (c, fid) ∈ s.awaiters ∧
        kvLookup fid s.futures = some Future.cancelled
    · rw [show (step s (Op.timeoutHandle c fid)).1.awaiters =
        (resolve_pending_power_request c timeoutResolveMsg s).2.awaiters by
        simp only [step, if_pos hP]]
      rw [resolve_awaiters_eq]
      simp [isAddOf]
    · rw [show (step s (Op.timeoutHandle c fid)).1.awaiters = s.awaiters by
        simp only [step, if_neg hP]]
      simp [isAddOf]
  | awaitValue c fid =>
    cases hf : kvLookup fid s.futures with
    | none =>
      rw [show (step s (Op.awaitValue c fid)).1.awaiters = s.awaiters by
        simp only [step, hf]]
      simp [isAddOf]
    | some fut =>
      cases fut with
      | pending =>
        rw [show (step s (Op.awaitValue c fid)).1.awaiters = s.awaiters by
          simp only [step, hf]]
        simp [isAddOf]
      | cancelled =>
        rw [show (step s (Op.awaitValue c fid)).1.awaiters = s.awaiters by
          simp only [step, hf]]
        simp [isAddOf]
      | resolved v =>
        by_cases hm : (c, fid) ∈ s.awaiters
        · rw [show (step s (Op.awaitValue c fid)).1.awaiters = s.awaiters by
            simp only [step, hf, if_pos hm]]
          simp [isAddOf]
        · rw [show (step s (Op.awaitValue c fid)).1.awaiters = s.awaiters by
            simp only [step, hf, if_neg hm]]
          simp [isAddOf]

theorem run_awaiterCount (cid : String) (ops : List Op) : ∀ s : PState,
    cidAwaiterCount cid (run s ops).1.awaiters =
      cidAwaiterCount cid s.awaiters + countAdds cid ops := by
  induction ops with
  | nil =>
    intro s
    show cidAwaiterCount cid s.awaiters = _ + countAdds cid []
    rw [show countAdds cid [] = 0 from rfl, Nat.add_zero]
  | cons op ops ih =>
    intro s
    rw [run_cons]
    show cidAwaiterCount cid (run (step s op).1 ops).1.awaiters = _
    rw [ih, step_awaiterCount, countAdds_cons]
    omega

theorem GInv_stateAt (ops : List Op) (n : Nat) : GInv (stateAt ops n) :=
  GInv_run _ GInv_init

theorem stateAt_awaiterCount_le (cid : String) (ops : List Op) (n : Nat)
    (h : countAdds cid ops ≤ 1) :
    cidAwaiterCount cid (stateAt ops n).awaiters ≤ 1 := by
  unfold stateAt
  rw [run_awaiterCount]
  rw [show cidAwaiterCount cid initState.awaiters = 0 from rfl, Nat.zero_add]
  exact Nat.le_trans (countAdds_take_le cid ops n) h

/-! ## Per-step await-return count -/

theorem countAwaitReturns_cons (cid : String) (e : Event) (evs : List Event) :
    countAwaitReturns cid (e :: evs) =
      (if isAwaitReturnOf cid e = true then 1 else 0) +
        countAwaitReturns cid evs := by
  simp only [countAwaitReturns, List.filter_cons]
  split
  · simp [Nat.add_comm]
  · simp

theorem step_awaitReturns_le_one (cid : String) (s : PState) (op : Op) :
    countAwaitReturns cid (step s op).2 ≤ 1 := by
  cases op with
  | addReq c => exact Nat.zero_le 1
  | resolveReq c v =>
    rw [show (step s (Op.resolveReq c v)).2 =
      [Event.resolveReturned c (resolve_pending_power_request c v s).1]
      from rfl]
    rw [countAwaitReturns_cons]
    simp [isAwaitReturnOf, countAwaitReturns]
  | timeoutFire c fid =>
    by_cases hP : (c, fid) ∈ s.awaiters ∧
        kvLookup fid s.futures = some Future.pending
    · rw [show (step s (Op.timeoutFire c fid)).2 = [] by
        simp only [step, if_pos hP]]
      exact Nat.zero_le 1
    · rw [show (step s (Op.timeoutFire c fid)).2 = [] by
        simp only [step, if_neg hP]]
      exact Nat.zero_le 1
  | timeoutHandle c fid =>
    by_cases hP : (c, fid) ∈ s.awaiters ∧
        kvLookup fid s.futures = some Future.cancelled
    · rw [show (step s (Op.timeoutHandle c fid)).2 =
        [Event.resolveReturned c
          (resolve_pending_power_request c timeoutResolveMsg s).1,
         Event.awaitReturned c AwaitRes.timedOut] by
        simp only [step, if_pos hP]]
      rw [countAwaitReturns_cons, countAwaitReturns_cons]
      have h1 : isAwaitReturnOf cid
          (Event.resolveReturned c
            (resolve_pending_power_request c timeoutResolveMsg s).1) = false :=
        rfl
      rw [h1]
      simp only [Bool.false_eq_true, if_false, Nat.zero_add]
      by_cases hc : (c == cid) = true
      · rw [if_pos (by exact hc)]
        rw [show countAwaitReturns cid [] = 0 from rfl]
      · rw [if_neg (by exact hc)]
        rw [show countAwaitReturns cid [] = 0 from rfl]
        exact Nat.zero_le 1
    · rw [show (step s (Op.timeoutHandle c fid)).2 = [] by
        simp only [step, if_neg hP]]
      exact Nat.zero_le 1
  | awaitValue c fid =>
    cases hf : kvLookup fid s.futures with
    | none =>
      rw [show (step s (Op.awaitValue c fid)).2 = [] by simp only [step, hf]]
      exact Nat.zero_le 1
    | some fut =>
      cases fut with
      | pending =>
        rw [show (step s (Op.awaitValue c fid)).2 = [] by simp only [step, hf]]
        exact Nat.zero_le 1
      | cancelled =>
        rw [show (step s (Op.awaitValue c fid)).2 = [] by simp only [step, hf]]
        exact Nat.zero_le 1
      | resolved v =>
        by_cases hm : (c, fid) ∈ s.awaiters
        · rw [show (step s (Op.awaitValue c fid)).2 =
            [Event.awaitReturned c (AwaitRes.value v)] by
            simp only [step, hf, if_pos hm]]
          rw [countAwaitReturns_cons]
          by_cases hc : (c == cid) = true
          · rw [if_pos (by exact hc)]
            rw [show countAwaitReturns cid [] = 0 from rfl]
          · rw [if_neg (by exact hc)]
            rw [show countAwaitReturns cid [] = 0 from rfl]
            exact Nat.zero_le 1
        · rw [show (step s (Op.awaitValue c fid)).2 = [] by
            simp only [step, hf, if_neg hm]]
          exact Nat.zero_le 1

/-! ## Claim C1 -/

/-- C1, counterexample to the claim as stated: because
`add_pending_power_request` silently overwrites an existing entry, a
sequence that registers the same command_id twice lets two distinct
`resolve` calls for that command_id both return `true`: the claimed bound
"at most one resolve call for a given command_id returns true" fails for
the sequence add c / resolve c / add c / resolve c. -/
theorem pending_table_exactly_once_counterexample :
    countTrueResolves "c"
        (run initState [Op.addReq "c", Op.resolveReq "c" "a",
          Op.addReq "c", Op.resolveReq "c" "b"]).2 = 2 ∧
    ¬ countTrueResolves "c"
        (run initState [Op.addReq "c", Op.resolveReq "c" "a",
          Op.addReq "c", Op.resolveReq "c" "b"]).2 ≤ 1 := by
  constructor
  · rfl
  · decide

/-- C1 (amended with the freshness hypothesis that each command_id is
registered at most once, as the uuid-based id generation guarantees): over
every interleaving of add/resolve/await steps on the Pending-Request Table,
(1) at most one resolve call for the given command_id returns true;
(2) each step emits at most one await outcome for the command_id — an await
never returns both a value and TimedOut;
(3) every await outcome is either a resolved value or TimedOut, and
immediately after the step in which an await for the command_id returns,
the table holds no entry for that command_id. -/
theorem pending_table_exactly_once (cid : String) (ops : List Op)
    (hfresh : countAdds cid ops ≤ 1) :
    countTrueResolves cid (run initState ops).2 ≤ 1 ∧
    (∀ (s : PState) (op : Op), countAwaitReturns cid (step s op).2 ≤ 1) ∧
    (∀ n op, ops.get? n = some op →
      ∀ r, Event.awaitReturned cid r ∈ (step (stateAt ops n) op).2 →
        ((∃ v, r = AwaitRes.value v) ∨ r = AwaitRes.timedOut) ∧
        kvLookup cid (stateAt ops (n + 1)).table = none) := by
  refine ⟨trueResolves_le_one_main cid ops initState hfresh rfl,
    fun s op => step_awaitReturns_le_one cid s op, ?_⟩
  intro n op hget r hmem
  have hstep := stateAt_succ ops n op hget
  cases op with
  | addReq c =>
    rw [show (step (stateAt ops n) (Op.addReq c)).2 = [] from rfl] at hmem
    cases hmem
  | resolveReq c v =>
    rw [show (step (stateAt ops n) (Op.resolveReq c v)).2 =
      [Event.resolveReturned c
        (resolve_pending_power_request c v (stateAt ops n)).1] from rfl] at hmem
    exact Event.noConfusion (List.mem_singleton.mp hmem)
  | timeoutFire c fid =>
    by_cases hP : (c, fid) ∈ (stateAt ops n).awaiters ∧
        kvLookup fid (stateAt ops n).futures = some Future.pending
    · rw [show (step (stateAt ops n) (Op.timeoutFire c fid)).2 = [] by
        simp only [step, if_pos hP]] at hmem
      cases hmem
    · rw [show (step (stateAt ops n) (Op.timeoutFire c fid)).2 = [] by
        simp only [step, if_neg hP]] at hmem
      cases hmem
  | timeoutHandle c fid =>
    by_cases hP : (c, fid) ∈ (stateAt ops n).awaiters ∧
        kvLookup fid (stateAt ops n).futures = some Future.cancelled
    · rw [show (step (stateAt ops n) (Op.timeoutHandle c fid)).2 =
        [Event.resolveReturned c
          (resolve_pending_power_request c timeoutResolveMsg (stateAt ops n)).1,
         Event.awaitReturned c AwaitRes.timedOut] by
        simp only [step, if_pos hP]] at hmem
      rcases List.mem_cons.mp hmem with h1 | h2
      · exact Event.noConfusion h1
      · have h2' := List.mem_singleton.mp h2
        injection h2' with hcid hr
        refine ⟨Or.inr hr, ?_⟩
        rw [hstep]
        rw [show (step (stateAt ops n) (Op.timeoutHandle c fid)).1 =
          (resolve_pending_power_request c timeoutResolveMsg (stateAt ops n)).2 by
          simp only [step, if_pos hP]]
        rw [hcid]
        exact resolve_table_self c timeoutResolveMsg (stateAt ops n)
    · rw [show (step (stateAt ops n) (Op.timeoutHandle c fid)).2 = [] by
        simp only [step, if_neg hP]] at hmem
      cases hmem
  | awaitValue c fid =>
    cases hf : kvLookup fid (stateAt ops n).futures with
    | none =>
      rw [show (step (stateAt ops n) (Op.awaitValue c fid)).2 = [] by
        simp only [step, hf]] at hmem
      cases hmem
    | some fut =>
      cases fut with
      | pending =>
        rw [show (step (stateAt ops n) (Op.awaitValue c fid)).2 = [] by
          simp only [step, hf]] at hmem
        cases hmem
      | cancelled =>
        rw [show (step (stateAt ops n) (Op.awaitValue c fid)).2 = [] by
          simp only [step, hf]] at hmem
        cases hmem
      | resolved v =>
        by_cases hm : (c, fid) ∈ (stateAt ops n).awaiters
        · rw [show (step (stateAt ops n) (Op.awaitValue c fid)).2 =
            [Event.awaitReturned c (AwaitRes.value v)] by
            simp only [step, hf, if_pos hm]] at hmem
          have h' := List.mem_singleton.mp hmem
          injection h' with hcid hr
          refine ⟨Or.inl ⟨v, hr⟩, ?_⟩
          rw [hstep]
          rw [show (step (stateAt ops n) (Op.awaitValue c fid)).1 =
            stateAt ops n by simp only [step, hf, if_pos hm]]
          cases hl : kvLookup cid (stateAt ops n).table with
          | none => rfl
          | some f =>
            exfalso
            have hG := GInv_stateAt ops n
            have hmem2 := hG.tableAwaiter cid f hl
            have hcnt := stateAt_awaiterCount_le cid ops n hfresh
            rw [← hcid] at hm
            have hff : f = fid := cidAwaiterCount_le_one_eq hcnt hmem2 hm
            subst hff
            exact hG.tableNotResolved cid f v hl hf
        · rw [show (step (stateAt ops n) (Op.awaitValue c fid)).2 = [] by
            simp only [step, hf, if_neg hm]] at hmem
          cases hmem

/-- Witness for C1: a concrete well-formed interleaving (register once,
resolve once) satisfying the freshness hypothesis, at which the theorem's
conclusion evaluates. -/
theorem pending_table_exactly_once_witness :
    countAdds "c" [Op.addReq "c", Op.resolveReq "c" "ok"] ≤ 1 ∧
    countTrueResolves "c"
      (run initState [Op.addReq "c", Op.resolveReq "c" "ok"]).2 ≤ 1 :=
  ⟨by decide,
   (pending_table_exactly_once "c" [Op.addReq "c", Op.resolveReq "c" "ok"]
     (by decide)).1⟩

/-! ## Claim C2 -/

/-- C2, counterexample to the claim as stated: in the reachable state where
the timeout has just cancelled the future of command "c" (so "c" has a slot
that is already done) but the timeout handler has not yet run, calling
resolve returns `false` as claimed, but it does have an observable side
effect: the table entry for "c" is popped (visible through
`get_pending_power_request`, which finds the entry before the call and not
after it). -/
theorem resolve_no_side_effect_counterexample :
    (resolve_pending_power_request "c" "v"
        (run initState [Op.addReq "c", Op.timeoutFire "c" 0]).1).1 = false ∧
    get_pending_power_request "c"
        (run initState [Op.addReq "c", Op.timeoutFire "c" 0]).1 = some 0 ∧
    get_pending_power_request "c"
        (resolve_pending_power_request "c" "v"
          (run initState [Op.addReq "c", Op.timeoutFire "c" 0]).1).2 = none := by
  refine ⟨rfl, rfl, rfl⟩

/-- C2 (amended): resolving a command_id that is absent from the table
returns `false` and leaves the state entirely unchanged; resolving a
command_id whose slot is already done (resolved or cancelled) returns
`false` and never touches any future's state — but it removes that
command_id's entry from the table (all other keys keep their bindings). -/
theorem resolve_unknown_or_done (cid v : String) (s : PState) :
    (kvLookup cid s.table = none →
      resolve_pending_power_request cid v s = (false, s)) ∧
    (∀ fid fut, kvLookup cid s.table = some fid →
      kvLookup fid s.futures = some fut → fut.done = true →
      (resolve_pending_power_request cid v s).1 = false ∧
      (resolve_pending_power_request cid v s).2.futures = s.futures ∧
      get_pending_power_request cid (resolve_pending_power_request cid v s).2 =
        none ∧
      ∀ c, c ≠ cid →
        kvLookup c (resolve_pending_power_request cid v s).2.table =
          kvLookup c s.table) := by
  constructor
  · intro h
    exact resolve_false_of_none v s h
  · intro fid fut hl hf hdone
    have hne : ¬ (kvLookup fid s.futures = some Future.pending) := by
      rw [hf]
      intro he
      injection he with he'
      rw [he'] at hdone
      simp [Future.done] at hdone
    refine ⟨?_, ?_, ?_, ?_⟩
    · simp only [resolve_pending_power_request, hl, if_neg hne]
    · simp only [resolve_pending_power_request, hl, if_neg hne]
    · simp only [resolve_pending_power_request, hl, if_neg hne,
        get_pending_power_request]
      exact kvLookup_kvErase_self cid s.table
    · intro c hc
      simp only [resolve_pending_power_request, hl, if_neg hne]
      exact kvLookup_kvErase_ne s.table hc

/-- Witness for C2's amended theorem: concrete instances of both branches
(an unknown id on the empty table, and the reachable cancelled-slot state of
the counterexample scenario). -/
theorem resolve_unknown_or_done_witness :
    resolve_pending_power_request "x" "v" initState = (false, initState) ∧
    (resolve_pending_power_request "c" "v"
        (run initState [Op.addReq "c", Op.timeoutFire "c" 0]).1).1 = false ∧
    (resolve_pending_power_request "c" "v"
        (run initState [Op.addReq "c", Op.timeoutFire "c" 0]).1).2.futures =
      (run initState [Op.addReq "c", Op.timeoutFire "c" 0]).1.futures :=
  ⟨(resolve_unknown_or_done "x" "v" initState).1 rfl,
   ((resolve_unknown_or_done "c" "v"
      (run initState [Op.addReq "c", Op.timeoutFire "c" 0]).1).2 0
      Future.cancelled rfl rfl rfl).1,
   ((resolve_unknown_or_done "c" "v"
      (run initState [Op.addReq "c", Op.timeoutFire "c" 0]).1).2 0
      Future.cancelled rfl rfl rfl).2.1⟩

/-! ## Claim C3 -/

/-- C3, counterexample to the claim as stated: `add_pending_power_request`
is a plain dict assignment; registering "c" a second time does not fail with
any `DuplicateCommandId` signal — it succeeds and silently replaces the
existing entry (the table now maps "c" to the new future id 1), leaving the
displaced future 0 behind, still pending. -/
theorem add_duplicate_counterexample :
    get_pending_power_request "c" (run initState [Op.addReq "c"]).1 = some 0 ∧
    get_pending_power_request "c"
        (registerPowerRequest "c" (run initState [Op.addReq "c"]).1) = some 1 ∧
    kvLookup 0
        (registerPowerRequest "c" (run initState [Op.addReq "c"]).1).futures =
      some Future.pending := by
  refine ⟨rfl, rfl, rfl⟩

/-- C3 (amended): registering a command_id that already has a table entry
raises no error: the operation succeeds, rebinding the command_id to the
freshly created future, and the previously registered future is left in the
store unchanged (orphaned, never to be resolved through the table). -/
theorem add_duplicate_replaces (cid : String) (s : PState) (fid0 : Nat)
    (_h : kvLookup cid s.table = some fid0) (hlt : fid0 < s.nextId) :
    get_pending_power_request cid (registerPowerRequest cid s) =
      some s.nextId ∧
    kvLookup fid0 (registerPowerRequest cid s).futures =
      kvLookup fid0 s.futures := by
  constructor
  · show kvLookup cid (kvInsert cid s.nextId s.table) = some s.nextId
    exact kvLookup_kvInsert_self cid s.nextId s.table
  · show kvLookup fid0 (kvInsert s.nextId Future.pending s.futures) =
      kvLookup fid0 s.futures
    exact kvLookup_kvInsert_ne Future.pending s.futures (Nat.ne_of_lt hlt)

/-- Witness for C3's amended theorem at the counterexample state. -/
theorem add_duplicate_replaces_witness :
    get_pending_power_request "c"
        (registerPowerRequest "c" (run initState [Op.addReq "c"]).1) =
      some 1 ∧
    kvLookup 0
        (registerPowerRequest "c" (run initState [Op.addReq "c"]).1).futures =
      kvLookup 0 (run initState [Op.addReq "c"]).1.futures :=
  add_duplicate_replaces "c" (run initState [Op.addReq "c"]).1 0 rfl
    (by decide)

/-! ## Claim C4 -/

/-- C4: in `get_power_status_tool`, the pending slot for the fresh
command_id is registered before the outbound write is attempted (the table
holds the entry in the state in which the write runs), and on a send
failure the tool's own `resolve` call takes effect (returns `true`) and
removes the entry, so no entry for that command_id remains in the table
when the error result is returned. -/
theorem send_failure_cleans_pending (cid errText : String) (s : PState) :
    get_pending_power_request cid (registerPowerRequest cid s) =
      some s.nextId ∧
    (resolve_pending_power_request cid
        ("Error: Failed to send command: " ++ errText)
        (registerPowerRequest cid s)).1 = true ∧
    get_pending_power_request cid (get_power_status_send_fail cid errText s).2 =
      none := by
  refine ⟨?_, ?_, ?_⟩
  · show kvLookup cid (kvInsert cid s.nextId s.table) = some s.nextId
    exact kvLookup_kvInsert_self cid s.nextId s.table
  · rw [resolve_true_iff]
    refine ⟨s.nextId, ?_, ?_⟩
    · show kvLookup cid (kvInsert cid s.nextId s.table) = some s.nextId
      exact kvLookup_kvInsert_self cid s.nextId s.table
    · show kvLookup s.nextId (kvInsert s.nextId Future.pending s.futures) =
        some Future.pending
      exact kvLookup_kvInsert_self s.nextId Future.pending s.futures
  · show kvLookup cid
      (resolve_pending_power_request cid
        ("Error: Failed to send command: " ++ errText)
        (registerPowerRequest cid s)).2.table = none
    exact resolve_table_self cid _ (registerPowerRequest cid s)

/-! ## Claim C5 -/

theorem audio_run_cons (buf c : List Nat) (cs : List (List Nat)) :
    audio_run buf (c :: cs) =
      ((audio_run (audio_chunk_step buf c).1 cs).1,
       (match (audio_chunk_step buf c).2 with
        | some o => [o]
        | none => []) ++ (audio_run (audio_chunk_step buf c).1 cs).2) :=
  rfl

/-- C5: starting from the empty per-connection buffer, processing any
sequence of audio-chunk frames (1) leaves the buffer empty after every frame
(in particular immediately after each flush), (2) hands downstream exactly
the nonempty chunks, each flush being the byte-wise concatenation of the
chunks appended since the previous flush (the empty chunks accumulated in
between contribute no bytes, and the code flushes on any nonzero buffer, so
each flush unit is that concatenation), and (3) loses and duplicates
nothing: the concatenation of all flushed units equals the concatenation of
all chunks received. -/
theorem audio_flush_concat (cs : List (List Nat)) :
    (audio_run [] cs).1 = [] ∧
    (audio_run [] cs).2 = cs.filter (fun c => !c.isEmpty) ∧
    listJoin (audio_run [] cs).2 = listJoin cs := by
  induction cs with
  | nil => exact ⟨rfl, rfl, rfl⟩
  | cons c cs ih =>
    obtain ⟨ih1, ih2, ih3⟩ := ih
    by_cases hc : c = []
    · subst hc
      rw [audio_run_cons]
      rw [show audio_chunk_step ([] : List Nat) [] = ([], none) from rfl]
      refine ⟨ih1, ?_, ?_⟩
      · show (audio_run [] cs).2 = _
        rw [List.filter_cons_of_neg (by decide)]
        exact ih2
      · show listJoin (audio_run [] cs).2 = listJoin ([] :: cs)
        rw [ih3]
        show listJoin cs = [] ++ listJoin cs
        rw [List.nil_append]
    · have hstep : audio_chunk_step [] c = ([], some c) := by
        unfold audio_chunk_step
        have hpos : 0 < ([] ++ c).length := by
          rw [List.nil_append]
          exact List.length_pos.mpr hc
        rw [if_pos hpos, List.nil_append]
      rw [audio_run_cons, hstep]
      refine ⟨ih1, ?_, ?_⟩
      · show c :: (audio_run [] cs).2 = _
        rw [List.filter_cons_of_pos (by
          cases c with
          | nil => exact absurd rfl hc
          | cons a t => rfl)]
        rw [ih2]
      · show c ++ listJoin (audio_run [] cs).2 = listJoin (c :: cs)
        rw [ih3]
        rfl

/-! ## Claim C6 -/

/-- C6: for every inbound command-acknowledgement, resolution through the
Pending-Request Table is attempted first: if it returns true the action is
`consumedByWaiter` and nothing else happens — even when the command_id is
the interactive sentinel; if it returns false and the command_id is the
sentinel, the interactive text response is written back; if it returns
false and the command_id is not the sentinel, the ack is discarded; and in
every `false` case no future in the store is modified, so no waiter is
affected and no error is raised (the handler is total). -/
theorem command_ack_routing (ackCommandId ackMessage : String) (s : PState) :
    ((resolve_pending_power_request ackCommandId ackMessage s).1 = true →
      (handle_command_ack ackCommandId ackMessage s).1 =
        AckAction.consumedByWaiter) ∧
    ((resolve_pending_power_request ackCommandId ackMessage s).1 = false →
      ackCommandId = interactiveSentinel →
      (handle_command_ack ackCommandId ackMessage s).1 =
        AckAction.interactiveResponse interactiveReplyText) ∧
    ((resolve_pending_power_request ackCommandId ackMessage s).1 = false →
      ackCommandId ≠ interactiveSentinel →
      (handle_command_ack ackCommandId ackMessage s).1 = AckAction.discarded) ∧
    ((resolve_pending_power_request ackCommandId ackMessage s).1 = false →
      (handle_command_ack ackCommandId ackMessage s).2.futures = s.futures) := by
  refine ⟨?_, ?_, ?_, ?_⟩
  · intro h
    simp only [handle_command_ack, h, if_true]
  · intro h hs
    simp only [handle_command_ack, h, Bool.false_eq_true, if_false, if_pos hs]
  · intro h hs
    simp only [handle_command_ack, h, Bool.false_eq_true, if_false, if_neg hs]
  · intro h
    simp only [handle_command_ack, h, Bool.false_eq_true, if_false]
    by_cases hs : ackCommandId = interactiveSentinel
    · rw [if_pos hs]
      exact resolve_futures_of_false h
    · rw [if_neg hs]
      exact resolve_futures_of_false h

/-- Witness for C6: the three routes at concrete inputs — a registered
command_id is consumed by its waiter, the sentinel (unresolved) triggers the
interactive text response, and an unknown non-sentinel ack is discarded
without touching any future. -/
theorem command_ack_routing_witness :
    (handle_command_ack "c" "m" (run initState [Op.addReq "c"]).1).1 =
      AckAction.consumedByWaiter ∧
    (handle_command_ack "interactive_shell_command" "m" initState).1 =
      AckAction.interactiveResponse interactiveReplyText ∧
    (handle_command_ack "x" "m" initState).1 = AckAction.discarded ∧
    (handle_command_ack "x" "m" initState).2.futures = initState.futures :=
  ⟨(command_ack_routing "c" "m" (run initState [Op.addReq "c"]).1).1 rfl,
   (command_ack_routing "interactive_shell_command" "m" initState).2.1 rfl rfl,
   (command_ack_routing "x" "m" initState).2.2.1 rfl (by decide),
   (command_ack_routing "x" "m" initState).2.2.2 rfl⟩

/-! ## Claim C7 -/

/-- C7: after a connection's stream terminates — whatever the cause, since
the done callback registered at stream start runs cleanup unconditionally —
the robot id is absent from both the stream registry and the audio-buffer
map, and running cleanup again on an already-cleaned state is a harmless
no-op (cleanup is idempotent, so removing an already-removed id changes
nothing). -/
theorem connection_cleanup_on_terminate (cause : TermCause)
    (robot_id : String) (ctx : Nat) (st : ServerConnState) :
    kvLookup robot_id
        (communicate_terminate cause robot_id
          (communicate_setup robot_id ctx st)).active_robot_streams = none ∧
    kvLookup robot_id
        (communicate_terminate cause robot_id
          (communicate_setup robot_id ctx st)).robot_audio_buffers = none ∧
    communicate_cleanup robot_id (communicate_cleanup robot_id st) =
      communicate_cleanup robot_id st := by
  refine ⟨?_, ?_, ?_⟩
  · exact kvLookup_kvErase_self robot_id _
  · exact kvLookup_kvErase_self robot_id _
  · simp [communicate_cleanup, kvErase_idem]

/-! ## Claim C8 -/

theorem getGrpcContextOfTool_none_of_invalid (tc : Option ToolCtx)
    (streams : List (String × Nat)) (inv : InvocationCtx)
    (hbind : tc.bind ToolCtx.invocation_ctx = some inv)
    (hvalid : contextInvalid tc streams = true)
    (hu : truthyStr inv.user_id = true)
    (hs : truthyStr inv.session_id = true) :
    getGrpcContextOfTool tc streams = none := by
  cases tc with
  | none => cases hbind
  | some t =>
    have hbind' : t.invocation_ctx = some inv := hbind
    cases hu' : inv.user_id with
    | none => rw [hu'] at hu; cases hu
    | some rid =>
      have hrid : rid.isEmpty = false := by
        rw [hu'] at hu
        simpa [truthyStr] using hu
      have hlook : get_grpc_context_by_robot_id streams rid = none := by
        have htr : truthyStr (some rid) = true := by
          rw [← hu']
          exact hu
        simp only [contextInvalid, hbind, hu', htr, hs, Bool.not_true,
          Bool.false_or] at hvalid
        exact Option.isNone_iff_eq_none.mp hvalid
      simp only [getGrpcContextOfTool, hbind', hu', hrid, Bool.false_eq_true,
        if_false, hlook]

/-- C8: every command-sending tool (move, turn, LED, camera, power-status,
voice-volume, find-object, cancel) returns an error result — without
reaching the write-attempt stage — whenever the invocation context is
missing, the robot id or session id is missing/empty, or no connection is
registered for the robot id; the validation never raises (the model is a
total function into results). -/
theorem tools_validate_before_write (tc : Option ToolCtx)
    (streams : List (String × Nat))
    (hvalid : contextInvalid tc streams = true) :
    (∀ lin ang, (move_shimmy_tool lin ang tc streams).isError = true) ∧
    (∀ ang, (turn_shimmy_tool ang tc streams).isError = true) ∧
    (∀ col bri pat toff,
      (set_led_tool col bri pat toff tc streams).isError = true) ∧
    (∀ ct, (capture_image_tool ct tc streams).isError = true) ∧
    (get_power_status_tool_validate tc streams).isError = true ∧
    (∀ v, (set_voice_volume_tool v tc streams).isError = true) ∧
    (∀ ob, (find_object_tool ob tc streams).isError = true) ∧
    (∀ cc, (cancel_movement_tool cc tc streams).isError = true) := by
  cases hbind : tc.bind ToolCtx.invocation_ctx with
  | none =>
    refine ⟨?_, ?_, ?_, ?_, ?_, ?_, ?_, ?_⟩ <;>
      intros <;>
      simp only [move_shimmy_tool, turn_shimmy_tool, set_led_tool,
        capture_image_tool, get_power_status_tool_validate,
        set_voice_volume_tool, find_object_tool, cancel_movement_tool,
        hbind, ToolStep.isError]
  | some inv =>
    by_cases hu : truthyStr inv.user_id = true
    · by_cases hs : truthyStr inv.session_id = true
      · have hg := getGrpcContextOfTool_none_of_invalid tc streams inv hbind
          hvalid hu hs
        refine ⟨?_, ?_, ?_, ?_, ?_, ?_, ?_, ?_⟩ <;>
          intros <;>
          simp only [move_shimmy_tool, turn_shimmy_tool, set_led_tool,
            capture_image_tool, get_power_status_tool_validate,
            set_voice_volume_tool, find_object_tool, cancel_movement_tool,
            hbind, hu, hs, Bool.and_self, if_true, hg, ToolStep.isError]
      · have hs' : truthyStr inv.session_id = false := by simpa using hs
        refine ⟨?_, ?_, ?_, ?_, ?_, ?_, ?_, ?_⟩ <;>
          intros <;>
          simp only [move_shimmy_tool, turn_shimmy_tool, set_led_tool,
            capture_image_tool, get_power_status_tool_validate,
            set_voice_volume_tool, find_object_tool, cancel_movement_tool,
            hbind, hs', Bool.and_false, Bool.false_eq_true, if_false,
            ToolStep.isError]
    · have hu' : truthyStr inv.user_id = false := by simpa using hu
      refine ⟨?_, ?_, ?_, ?_, ?_, ?_, ?_, ?_⟩ <;>
        intros <;>
        simp only [move_shimmy_tool, turn_shimmy_tool, set_led_tool,
          capture_image_tool, get_power_status_tool_validate,
          set_voice_volume_tool, find_object_tool, cancel_movement_tool,
          hbind, hu', Bool.false_and, Bool.false_eq_true, if_false,
          ToolStep.isError]

/-- Witness for C8: a missing tool context with an empty registry makes all
eight tools return an error result. -/
theorem tools_validate_before_write_witness :
    (move_shimmy_tool none none none []).isError = true ∧
    (turn_shimmy_tool 90 none []).isError = true ∧
    (set_led_tool none none none false none []).isError = true ∧
    (capture_image_tool "RGB_IMAGE" none []).isError = true ∧
    (get_power_status_tool_validate none []).isError = true ∧
    (set_voice_volume_tool 1 none []).isError = true ∧
    (find_object_tool "ball" none []).isError = true ∧
    (cancel_movement_tool none none []).isError = true :=
  ⟨(tools_validate_before_write none [] rfl).1 none none,
   (tools_validate_before_write none [] rfl).2.1 90,
   (tools_validate_before_write none [] rfl).2.2.1 none none none false,
   (tools_validate_before_write none [] rfl).2.2.2.1 "RGB_IMAGE",
   (tools_validate_before_write none [] rfl).2.2.2.2.1,
   (tools_validate_before_write none [] rfl).2.2.2.2.2.1 1,
   (tools_validate_before_write none [] rfl).2.2.2.2.2.2.1 "ball",
   (tools_validate_before_write none [] rfl).2.2.2.2.2.2.2 none⟩

/-! ## Claim C9 -/

/-- C9: `set_voice_volume_tool` clamps the requested volume into the closed
interval [0, 1] — inputs below 0 become 0, inputs above 1 become 1, and
in-range inputs pass through unchanged — and whenever the tool reaches the
write stage, the `VoiceSettingsCommand` payload it embeds carries exactly
the clamped value. -/
theorem voice_volume_clamped (volume_level : Rat) :
    0 ≤ clampVolume volume_level ∧ clampVolume volume_level ≤ 1 ∧
    (volume_level < 0 → clampVolume volume_level = 0) ∧
    (1 < volume_level → clampVolume volume_level = 1) ∧
    (0 ≤ volume_level → volume_level ≤ 1 →
      clampVolume volume_level = volume_level) ∧
    (∀ tc streams sid pl,
      set_voice_volume_tool volume_level tc streams =
        ToolStep.writeAttempt sid pl →
      pl = RobotCommandPayload.voiceSettings (clampVolume volume_level)) := by
  refine ⟨le_max_left 0 _, max_le (by norm_num) (min_le_left 1 _), ?_, ?_, ?_, ?_⟩
  · intro h
    unfold clampVolume
    rw [min_eq_right (le_of_lt (lt_of_lt_of_le h zero_le_one)),
      max_eq_left (le_of_lt h)]
  · intro h
    unfold clampVolume
    rw [min_eq_left (le_of_lt h), max_eq_right zero_le_one]
  · intro h0 h1
    unfold clampVolume
    rw [min_eq_right h1, max_eq_right h0]
  · intro tc streams sid pl h
    unfold set_voice_volume_tool at h
    cases hbind : tc.bind ToolCtx.invocation_ctx with
    | none =>
      simp only [hbind] at h
      exact ToolStep.noConfusion h
    | some inv =>
      simp only [hbind] at h
      by_cases hts : (truthyStr inv.user_id && truthyStr inv.session_id) = true
      · rw [if_pos hts] at h
        cases hg : getGrpcContextOfTool tc streams with
        | none =>
          simp only [hg] at h
          exact ToolStep.noConfusion h
        | some ctx0 =>
          simp only [hg] at h
          injection h with h1 h2
          exact h2.symm
      · rw [if_neg hts] at h
        simp at h

/-- Witness for C9: concrete volumes — 2 is clamped to 1, -1 to 0, and the
payload of a successful concrete invocation carries the clamped value. -/
theorem voice_volume_clamped_witness :
    clampVolume 2 = 1 ∧ clampVolume (-1) = 0 ∧
    RobotCommandPayload.voiceSettings 1 =
      RobotCommandPayload.voiceSettings (clampVolume 2) :=
  ⟨(voice_volume_clamped 2).2.2.2.1 (by norm_num),
   (voice_volume_clamped (-1)).2.2.1 (by norm_num),
   (voice_volume_clamped 2).2.2.2.2.2
     (some ⟨some ⟨some "r", some "s"⟩⟩) [("r", 5)] "s"
     (RobotCommandPayload.voiceSettings 1) (by decide)⟩

/-! ## Claim C10 -/

/-- C10: `turn_shimmy_tool` is exactly `move_shimmy_tool` specialized with
no linear component: for every angle, tool context and registry it returns
the very same result, and any frame it writes carries a `MoveCommand`
payload with `target_linear_distance_meters = None` and the requested
angle. -/
theorem turn_delegates_to_move (target_angular_degrees : Rat)
    (tool_context : Option ToolCtx) (streams : List (String × Nat)) :
    turn_shimmy_tool target_angular_degrees tool_context streams =
      move_shimmy_tool none (some target_angular_degrees) tool_context
        streams ∧
    (∀ sid pl,
      turn_shimmy_tool target_angular_degrees tool_context streams =
        ToolStep.writeAttempt sid pl →
      pl = RobotCommandPayload.moveCommand none (some target_angular_degrees)) := by
  refine ⟨rfl, ?_⟩
  intro sid pl h
  unfold turn_shimmy_tool move_shimmy_tool at h
  cases hbind : tool_context.bind ToolCtx.invocation_ctx with
  | none =>
    simp only [hbind] at h
    exact ToolStep.noConfusion h
  | some inv =>
    simp only [hbind] at h
    by_cases hts : (truthyStr inv.user_id && truthyStr inv.session_id) = true
    · rw [if_pos hts] at h
      cases hg : getGrpcContextOfTool tool_context streams with
      | none =>
        simp only [hg] at h
        exact ToolStep.noConfusion h
      | some ctx0 =>
        simp only [hg] at h
        injection h with h1 h2
        exact h2.symm
    · rw [if_neg hts] at h
      simp at h

/-- Witness for C10: a concrete successful invocation, where the turn frame
carries a move payload with no linear component. -/
theorem turn_delegates_to_move_witness :
    turn_shimmy_tool 90 (some ⟨some ⟨some "r", some "s"⟩⟩) [("r", 5)] =
      move_shimmy_tool none (some 90) (some ⟨some ⟨some "r", some "s"⟩⟩)
        [("r", 5)] ∧
    RobotCommandPayload.moveCommand none (some 90) =
      RobotCommandPayload.moveCommand none (some (90 : Rat)) :=
  ⟨(turn_delegates_to_move 90 (some ⟨some ⟨some "r", some "s"⟩⟩) [("r", 5)]).1,
   (turn_delegates_to_move 90 (some ⟨some ⟨some "r", some "s"⟩⟩) [("r", 5)]).2
     "s" (RobotCommandPayload.moveCommand none (some 90)) (by decide)⟩

end Shimmy
